import Mathlib

/-!
Verification development for the `scraper-af` repository: a shallow Lean 4
embedding of the pure core of the scraping pipeline (URL discovery,
pagination control flow, deduplication, price/gender parsing, product-id
generation, the dry-run and duplicate-skip switches, and the
error-swallowing database existence check), with theorems settling the
specification claims about those parts.

External collaborators (the browser automation library, the HTTP client,
the hash and embedding libraries, the remote datastore) are modelled as
abstract function parameters ("oracles"); the pipeline's own logic is
translated statement by statement from the Python source.  Python decimal
values are modelled as exact rationals, machine-level `float` rounding
being irrelevant to every claim considered here.

The file is laid out with all definitions first, followed by all
theorems.
-/

namespace PyStr

/-- Model of Python's substring containment test `pat in s` on character
lists: some suffix of `s` starts with `pat`. -/
def containsFrom (pat : List Char) : List Char → Bool
  | [] => pat.isEmpty
  | s@(_ :: rest) => pat.isPrefixOf s || containsFrom pat rest

/-- Python's `pat in s` for strings. -/
def pyContains (s pat : String) : Bool := containsFrom pat.data s.data

/-- Python's `s.startswith(p)`. -/
def pyStartsWith (s p : String) : Bool := p.data.isPrefixOf s.data

/-- Python's `s.lower()` (the markers compared are ASCII). -/
def pyToLower (s : String) : String := String.mk (s.data.map Char.toLower)

/-- Python's `s.upper()`. -/
def pyToUpper (s : String) : String := String.mk (s.data.map Char.toUpper)

/-- Python's `s.strip()`: drop whitespace from both ends. -/
def pyStrip (s : String) : String :=
  String.mk (((s.data.dropWhile Char.isWhitespace).reverse.dropWhile Char.isWhitespace).reverse)

/-- Python's `s.split(sep)[0]` for a one-character separator: everything
before the first occurrence of `c`. -/
def splitHead (c : Char) (s : String) : String :=
  String.mk (s.data.takeWhile (fun d => d ≠ c))

/-- URL cleanup used throughout the scrapers:
`url.split('?')[0].split('#')[0]` (strip query string and fragment). -/
def cleanUrl (s : String) : String := splitHead '#' (splitHead '?' s)

/-- Python's `s.replace(',', '')` (drop every comma). -/
def removeCommas (s : String) : String :=
  String.mk (s.data.filter (fun d => d ≠ ','))

/-- Numeric value of a digit run, as Python's `int`/`float` would read it. -/
def digitsToNat (cs : List Char) : Nat :=
  cs.foldl (fun n c => 10 * n + (c.toNat - 48)) 0

/-- Split a character list at every occurrence of `c` (the behavior of
Python's `s.split(sep)` for a one-character separator). -/
def splitOnChar (c : Char) : List Char → List (List Char)
  | [] => [[]]
  | d :: rest =>
    match splitOnChar c rest with
    | [] => if d = c then [[], []] else [[d]]
    | g :: gs => if d = c then [] :: g :: gs else (d :: g) :: gs

/-- Origin (`scheme://netloc`) of an absolute URL.  `urljoin(base, href)`
for a root-relative `href` (one starting with `/`) resolves to
`origin(base) ++ href`; the configured `base_url` values are origin-only
URLs such as `https://www.abercrombie.com`, for which this is exact. -/
def urlOrigin (s : String) : String :=
  match splitOnChar '/' s.data with
  | scheme :: [] :: host :: _ => String.mk scheme ++ "//" ++ String.mk host
  | _ => s

/-- `urllib.parse.urljoin(base, href)` restricted to the root-relative
hrefs the scrapers feed it (they only call it after checking
`href.startswith('/')`). -/
def urljoinRoot (base href : String) : String := urlOrigin base ++ href

end PyStr

open PyStr

namespace Rex

/-!
Models of the specific `re` patterns the scrapers use.  The `re` library
is an external collaborator; these functions reproduce, character by
character, the leftmost-match semantics of the four price patterns of
`abercrombie_fitch._parse_price`, the loose numeric pattern of
`product_scraper.scrape_product_details`, and the product-code pattern of
`abercrombie_fitch._generate_product_id`, on the pattern shapes actually
present in the source.
-/

/-- Result of matching the group `(\d+(?:[,.]\d+)?)`: the integer digit
run and the optional fraction digit run.  The separator character itself
is irrelevant downstream, because every caller replaces `,` by `.` in the
captured text before parsing it. -/
structure NumMatch where
  intDigits : List Char
  fracDigits : Option (List Char)
  deriving DecidableEq

/-- Exact rational value of `float` applied to the captured group after
the `,` → `.` replacement. -/
def NumMatch.value (m : NumMatch) : ℚ :=
  (digitsToNat m.intDigits : ℚ) +
    match m.fracDigits with
    | none => 0
    | some f => (digitsToNat f : ℚ) / ((10 : ℚ) ^ f.length)

/-- Number of characters the full match consumed (separator included when
a fraction part is present). -/
def NumMatch.consumed (m : NumMatch) : Nat :=
  m.intDigits.length +
    match m.fracDigits with
    | none => 0
    | some f => 1 + f.length

/-- Match `\d+(?:[,.]\d+)?` at the head of the input: greedy digit run,
then the optional group when a `,` or `.` immediately followed by at
least one digit is present. -/
def matchNumAt (cs : List Char) : Option NumMatch :=
  let d1 := cs.takeWhile Char.isDigit
  if d1.isEmpty then none
  else
    match cs.drop d1.length with
    | sep :: r2 =>
      if sep = ',' ∨ sep = '.' then
        let d2 := r2.takeWhile Char.isDigit
        if d2.isEmpty then some ⟨d1, none⟩ else some ⟨d1, some d2⟩
      else some ⟨d1, none⟩
    | [] => some ⟨d1, none⟩

/-- `re.search` for the symbol-then-number patterns `€\s*(num)` and
`\$(num)`: scan positions left to right and accept the first position
where the symbol is followed (after optional whitespace, when the pattern
has `\s*`) by a number group. -/
def searchSymNum (sym : Char) (allowSpace : Bool) : List Char → Option NumMatch
  | [] => none
  | c :: rest =>
    if c = sym then
      match matchNumAt (if allowSpace then rest.dropWhile Char.isWhitespace else rest) with
      | some m => some m
      | none => searchSymNum sym allowSpace rest
    else searchSymNum sym allowSpace rest

/-- Attempt the number-then-symbol pattern `(num)\s*€` / `(num)\s*\$` at
one position.  The regex engine backtracks out of the optional fraction
group when the trailing `\s*` + symbol fails after it; backtracking
inside either digit run can never produce a match (the element after the
shortened run would have to be matched by `\s*` or the symbol, and it is
a digit), so trying the capture with and then without its fraction part
is exact. -/
def numThenSymAt (sym : Char) (cs : List Char) : Option NumMatch :=
  match matchNumAt cs with
  | none => none
  | some m =>
    let tailOk : Nat → Bool := fun consumed =>
      match (cs.drop consumed).dropWhile Char.isWhitespace with
      | c :: _ => c == sym
      | [] => false
    if tailOk m.consumed then some m
    else
      match m.fracDigits with
      | some _ =>
        if tailOk m.intDigits.length then some ⟨m.intDigits, none⟩ else none
      | none => none

/-- `re.search` for `(num)\s*€` / `(num)\s*\$`: leftmost position where
the pattern matches. -/
def searchNumSym (sym : Char) : List Char → Option NumMatch
  | [] => none
  | s@(_ :: rest) =>
    match numThenSymAt sym s with
    | some m => some m
    | none => searchNumSym sym rest

/-- `re.search(r'[\d,]+\.?\d*', s)` as `product_scraper` applies it — to a
string whose commas were already removed: leftmost digit run, then
optionally a literal dot and a possibly-empty digit run. -/
def searchLooseNum : List Char → Option NumMatch
  | [] => none
  | s@(c :: rest) =>
    if c.isDigit then
      let d1 := s.takeWhile Char.isDigit
      match s.drop d1.length with
      | '.' :: r2 => some ⟨d1, some (r2.takeWhile Char.isDigit)⟩
      | _ => some ⟨d1, none⟩
    else searchLooseNum rest

/-- `re.search(r'/p/([^/?]+)', url)`: leftmost occurrence of `/p/`
followed by at least one character that is neither `/` nor `?`; the
greedy capture runs to the next `/` or `?`.  When the character right
after an occurrence of `/p/` is `/` or `?`, the engine moves on to the
next occurrence. -/
def searchPCode : List Char → Option (List Char)
  | [] => none
  | s@(_ :: rest) =>
    if ['/', 'p', '/'].isPrefixOf s then
      let cap := (s.drop 3).takeWhile (fun c => c ≠ '/' ∧ c ≠ '?')
      if cap.isEmpty then searchPCode rest else some cap
    else searchPCode rest

end Rex

namespace MainScript

/-!
Model of `main.py` (`ScraperOrchestrator`): the cross-category
deduplication step of `run_full_scrape` (lines 166–173) and the
embedding-attachment loop of `generate_embeddings` (lines 96–110).
`api_scraper.APIScraper.scrape_subcategory` (lines 565–580) runs the very
same first-seen `seen_urls` deduplication over its accumulated products
(additionally counting the dropped url-less records for a diagnostic log
line).  Records are Python dicts; the fields irrelevant to every claim
(brand, metadata, …) are omitted from the record structures.
-/

/-- A scraped product record as accumulated by `run_full_scrape`:
`product.get('product_url')` may be absent (`none`) or empty. -/
structure RawProduct where
  product_url : Option String
  title : String
  deriving DecidableEq

/-- The `run_full_scrape` deduplication loop (main.py lines 166–173):

    seen_urls = set(); unique_products = []
    for product in all_products:
        url = product.get('product_url')
        if url and url not in seen_urls:
            seen_urls.add(url); unique_products.append(product)

Python truthiness makes both a missing and an empty `product_url` skip the
record.  The loop is rendered as structural recursion over the remaining
records, threading the `seen_urls` set as a list. -/
def dedupUniqueProducts (seen_urls : List String) : List RawProduct → List RawProduct
  | [] => []
  | p :: ps =>
    match p.product_url with
    | some url =>
      if url ≠ "" ∧ url ∉ seen_urls then
        p :: dedupUniqueProducts (url :: seen_urls) ps
      else
        dedupUniqueProducts seen_urls ps
    | none => dedupUniqueProducts seen_urls ps

/-- The product urls present in a record list (records without one skipped). -/
def urlsOf (ps : List RawProduct) : List String :=
  ps.filterMap (fun p => p.product_url)

/-- Concrete record list with product urls `[A, B, A, C, B]`. -/
def exampleABACB : List RawProduct :=
  [⟨some "A", "t1"⟩, ⟨some "B", "t2"⟩, ⟨some "A", "t3"⟩,
   ⟨some "C", "t4"⟩, ⟨some "B", "t5"⟩]

/-- A product record as it reaches the embedding stage of
`run_full_scrape`; `embedding` is absent until `generate_embeddings`
attaches one. -/
structure MProduct where
  title : String
  product_url : Option String
  image_url : Option String
  price : Option ℚ
  embedding : Option (List ℚ)
  deriving DecidableEq

/-- One iteration of the `generate_embeddings` loop (main.py lines
96–110): a product with a truthy `image_url` gets `generate_embedding`
applied; on success the embedding is attached, on failure (`None` from
the generator) the product is appended unchanged; products without an
image url are appended unchanged as well. -/
def generateEmbeddingsStep (gen : String → Option (List ℚ)) (p : MProduct) : MProduct :=
  match p.image_url with
  | some u =>
    if u ≠ "" then
      match gen u with
      | some e => { p with embedding := some e }
      | none => p
    else p
  | none => p

/-- `ScraperOrchestrator.generate_embeddings` over a product list: every
branch of the loop appends the product exactly once. -/
def generateEmbeddingsRun (gen : String → Option (List ℚ))
    (products : List MProduct) : List MProduct :=
  products.map (generateEmbeddingsStep gen)

/-- Concrete product record used to witness C8. -/
def sampleMProduct : MProduct :=
  ⟨"Shirt", some "https://www.abercrombie.com/shop/eu/p/1",
   some "https://img.example/1.jpg", some 10, none⟩

end MainScript

namespace EmbeddingGenerator

/-- `EMBEDDING_DIM` from config.py. -/
def embeddingDim : Nat := 768

/-- The dimension fixup at the end of
`EmbeddingGenerator.generate_embedding` (embedding_generator.py lines
337–346): pad with zeros when short, truncate when long. -/
def fitToDim (e : List ℚ) : List ℚ :=
  if e.length < embeddingDim then e ++ List.replicate (embeddingDim - e.length) 0
  else if e.length > embeddingDim then e.take embeddingDim
  else e

/-- `generate_embedding` (embedding_generator.py lines 289–352; the twin
`SiglipEmbedder.generate_embedding`, siglip_processor.py lines 131–162,
has the same download-then-infer shape without the dimension fixup):
download the image, run the model, normalize, fix the dimension.  Every
failure path is caught by the enclosing `try/except` and yields `None`.
The image download and the model inference (including its floating-point
L2 normalization) are external collaborators, modelled as `Option`-valued
oracles whose `none` stands for the exception the Python code catches. -/
def generateEmbedding {Img : Type} (download : String → Option Img)
    (modelEmbed : Img → Option (List ℚ)) (image_url : String) : Option (List ℚ) :=
  match download image_url with
  | none => none
  | some img =>
    match modelEmbed img with
    | none => none
    | some emb => some (fitToDim emb)

end EmbeddingGenerator

namespace AF

/-!
Model of `src/src/scrapers/abercrombie_fitch.py`
(`AbercrombieFitchScraper`).  The Playwright page is replaced by
structures holding the data the scraper reads from it; the Supabase
client, the `hashlib.md5` digest and the embedder are oracle parameters.
-/

/-- The static brand configuration (`config.brand` from the YAML file). -/
structure BrandConfig where
  base_url : String
  source : String
  name : String
  gender : String
  currency : String
  second_hand : Bool
  deriving DecidableEq

/-- `_generate_product_id` (lines 553–562): the `/p/` product code when
the URL has one, otherwise the first 16 hex digits of the `hashlib.md5`
digest of the URL.  `md5hex` is the external hash library, a fixed pure
function. -/
def generateProductId (md5hex : String → String) (source url : String) : String :=
  match Rex.searchPCode url.data with
  | some cap => source ++ "_" ++ String.mk cap
  | none => source ++ "_" ++ (md5hex url).take 16

/-- Python JSON values as produced by `json.loads` (numbers, booleans and
null cannot contain urls, so they are collapsed into one atom). -/
inductive PyJson where
  | str (s : String)
  | atom
  | obj (fields : List (String × PyJson))
  | arr (items : List PyJson)

/-- The keys the JSON-LD `extract_urls` helper inspects (line 271). -/
def jsonUrlKeys : List String := ["url", "href", "link", "productUrl", "@id"]

mutual

/-- The recursive `extract_urls` helper of `_extract_product_urls` method
2 (lines 268–277): a string value under one of the url-ish keys that
contains `/p/` is collected; every other value is recursed into (for a
string, the recursion collects nothing).  The Python code accumulates
into a `set` and iterates it afterwards; the model keeps document order
and leaves deduplication to the `seen` sets applied next, so the same
urls flow onward. -/
def extractUrlsJson : PyJson → List String
  | .str _ => []
  | .atom => []
  | .obj fields => extractUrlsFields fields
  | .arr items => extractUrlsItems items

/-- `extract_urls` over the key/value pairs of a JSON object. -/
def extractUrlsFields : List (String × PyJson) → List String
  | [] => []
  | (k, v) :: rest =>
    (match v with
     | .str s => if k ∈ jsonUrlKeys ∧ pyContains s "/p/" then [s] else []
     | v' => extractUrlsJson v') ++ extractUrlsFields rest

/-- `extract_urls` over the items of a JSON array. -/
def extractUrlsItems : List PyJson → List String
  | [] => []
  | v :: rest => extractUrlsJson v ++ extractUrlsItems rest

end

/-- The inputs `_extract_product_urls` (lines 186–377) reads from a
rendered category page: the `href` of every anchor (method 1), the parsed
JSON-LD script payloads (method 2; payloads failing `json.loads`, or
whose raw text lacks `/p/`, contribute nothing and are omitted), the
matches of the absolute-url regex `https?://[^\s"<>]+/p/[^\s"<>]+` over
inline script text (method 3 — the `re` engine is external, so the page
model carries its match list), and the anchor hrefs found under the
product-card selectors (method 4). -/
structure CategoryPage where
  anchorHrefs : List (Option String)
  jsonLd : List PyJson
  scriptMatches : List String
  cardHrefs : List (Option String)

/-- The mutable extraction state: the `urls` result list, the per-page
`seen_hrefs` set, and the scraper-lifetime `processed_urls` set. -/
structure DiscoverState where
  urls : List String
  seen_hrefs : List String
  processed_urls : List String
  deriving DecidableEq

/-- The guarded append every discovery method ends with:

    if clean_url not in self.processed_urls and clean_url not in seen_hrefs:
        urls.append(clean_url); seen_hrefs.add(clean_url)
        self.processed_urls.add(clean_url) -/
def pushUrl (clean_url : String) (st : DiscoverState) : DiscoverState :=
  if clean_url ∉ st.processed_urls ∧ clean_url ∉ st.seen_hrefs then
    ⟨st.urls ++ [clean_url], clean_url :: st.seen_hrefs, clean_url :: st.processed_urls⟩
  else st

/-- Feed one optional candidate through the guarded append. -/
def pushCandidate (st : DiscoverState) (cand : Option String) : DiscoverState :=
  match cand with
  | none => st
  | some c => pushUrl c st

/-- Method 1 preprocessing of one anchor href (lines 227–251): keep hrefs
containing `/p/` (the source writes the test as `'/p/' in href or
('/shop/' in href and '/p/' in href)`), resolve root-relative ones
against the brand base url, keep absolute ones, skip the rest; re-check
`/p/` on the full url, then strip query and fragment. -/
def anchorCandidate (base_url : String) (href? : Option String) : Option String :=
  match href? with
  | none => none
  | some href =>
    if pyContains href "/p/" || (pyContains href "/shop/" && pyContains href "/p/") then
      match
        (if pyStartsWith href "/" then some (urljoinRoot base_url href)
         else if pyStartsWith href "http" then some href
         else none) with
      | some full_url =>
        if pyContains full_url "/p/" then some (cleanUrl full_url) else none
      | none => none
    else none

/-- Method 4 preprocessing of one product-card href (lines 325–342): like
method 1 but without the second `/p/` re-check after resolution. -/
def cardCandidate (base_url : String) (href? : Option String) : Option String :=
  match href? with
  | none => none
  | some href =>
    if pyContains href "/p/" then
      if pyStartsWith href "/" then some (cleanUrl (urljoinRoot base_url href))
      else if pyStartsWith href "http" then some (cleanUrl href)
      else none
    else none

/-- Push one method's candidate stream through the guarded append. -/
def runMethod (st : DiscoverState) (cands : List (Option String)) : DiscoverState :=
  cands.foldl pushCandidate st

/-- `_extract_product_urls` (lines 186–377): methods 1–4 in source order.
JSON-LD url values (method 2) and the regex matches from inline scripts
(method 3) are only query/fragment-stripped — the code never resolves
them against the base url. -/
def extractProductUrls (base_url : String) (processed_urls : List String)
    (pg : CategoryPage) : DiscoverState :=
  let st0 : DiscoverState := ⟨[], [], processed_urls⟩
  let st1 := runMethod st0 (pg.anchorHrefs.map (anchorCandidate base_url))
  let st2 := runMethod st1 ((pg.jsonLd.flatMap extractUrlsJson).map (fun u => some (cleanUrl u)))
  let st3 := runMethod st2 (pg.scriptMatches.map (fun m => some (cleanUrl m)))
  runMethod st3 (pg.cardHrefs.map (cardCandidate base_url))

/-- The JSON-LD-only category page of the C4 counterexample: a structured
data block advertising a product by a root-relative url. -/
def jsonLdOnlyPage : CategoryPage :=
  ⟨[], [PyJson.obj [("url", PyJson.str "/shop/eu/p/12345")]], [], []⟩

/-- What `_extract_product_data` (lines 379–449) reads from a product
page; `navFails` stands for a navigation timeout or missing `h1` (the
exception the enclosing `try` turns into `None`). -/
structure ProductPage where
  navFails : Bool
  selTitle : Option String
  pageTitle : String
  selPriceText : Option String
  imageUrl : Option String
  description : Option String
  deriving DecidableEq

/-- The record `_extract_product_data` builds.  The `metadata` field
(scrape timestamp and user agent) is omitted; the Python dict drops
`None`-valued keys, which the `Option` fields model.  `embedding` is
absent until `_process_product_batch` attaches one. -/
structure ProductData where
  id : String
  source : String
  product_url : String
  image_url : Option String
  brand : String
  title : String
  description : Option String
  category : String
  gender : String
  price : Option ℚ
  currency : String
  second_hand : Bool
  embedding : Option (List ℚ)
  deriving DecidableEq

/-- `_parse_price` (lines 529–551): try the four currency-marked patterns
`€\s*(num)`, `\$(num)`, `(num)\s*€`, `(num)\s*\$` in order; on the first
match, replace `,` by `.` in the captured group and parse it (a capture
of shape `\d+(?:[,.]\d+)?` always parses, so the `ValueError` retry is
dead code); with no match, or falsy input, return `None`.  The function
returns only the price: the caller fills `currency` from the static brand
configuration, never from the matched symbol. -/
def parsePrice : Option String → Option ℚ
  | none => none
  | some t =>
    if t = "" then none
    else
      match Rex.searchSymNum '€' true t.data with
      | some m => some m.value
      | none =>
        match Rex.searchSymNum '$' false t.data with
        | some m => some m.value
        | none =>
          match Rex.searchNumSym '€' t.data with
          | some m => some m.value
          | none =>
            match Rex.searchNumSym '$' t.data with
            | some m => some m.value
            | none => none

/-- The `page.title()` fallback cleanup of the title extraction (line
402): strip everything from the first `|` on, then strip whitespace. -/
def titleFallback (pageTitle : String) : String :=
  if pyContains pageTitle "|" then pyStrip (splitHead '|' pageTitle) else pyStrip pageTitle

/-- Title extraction of `_extract_product_data` (lines 398–402): the
selector text when truthy, otherwise the cleaned `page.title()`. -/
def extractTitle (pg : ProductPage) : String :=
  match pg.selTitle with
  | some t => if t ≠ "" then t else titleFallback pg.pageTitle
  | none => titleFallback pg.pageTitle

/-- Outcome of `_extract_product_data`: the returned value, whether the
detail-scraping work (title/price/image/description extraction) ran, and
whether the store existence check ran. -/
structure ExtractOutcome where
  result : Option ProductData
  fieldsExtracted : Bool
  existenceChecked : Bool
  deriving DecidableEq

/-- `_extract_product_data` (lines 379–449).  Control flow of the source:
navigate and wait (failure → exception → `None`); extract title, price,
image and description; generate the product id; only then, when not in
dry-run mode, ask the store whether the url already exists and return
`None` if it does; otherwise build the record.  `dbHas` is the
`SupabaseClient.product_exists` oracle; the hardcoded category string
`'mens'` is taken from line 430. -/
def extractProductData (md5hex : String → String) (cfg : BrandConfig)
    (dry_run : Bool) (dbHas : String → Bool) (pg : ProductPage)
    (product_url : String) : ExtractOutcome :=
  if pg.navFails then ⟨none, false, false⟩
  else
    let title := extractTitle pg
    let price := parsePrice pg.selPriceText
    let image_url := pg.imageUrl
    let description := pg.description
    let product_id := generateProductId md5hex cfg.source product_url
    if ¬dry_run ∧ dbHas product_url then ⟨none, true, true⟩
    else
      ⟨some ⟨product_id, cfg.source, product_url, image_url, cfg.name, title,
             description, "mens", cfg.gender, price, cfg.currency,
             cfg.second_hand, none⟩,
       true, !dry_run⟩

/-- Result of `_process_product_batch` (lines 564–639): the records kept
(embeddings attached where generated), the image urls collected for the
embedder, whether the embedder was invoked, and the batches handed to
`SupabaseClient.insert_products_batch`.  The per-batch statistics counter
is omitted. -/
structure BatchResult where
  products_to_save : List ProductData
  image_urls : List String
  embedInvoked : Bool
  dbWrites : List (List ProductData)

/-- `_process_product_batch` (lines 564–639).  Each url is extracted (the
source runs the extractions concurrently; completion order affects no
property proved here, so the model keeps input order); records whose
extraction returned a value are kept and their truthy image urls
collected; embeddings are generated only when there are image urls AND
not in dry-run mode AND an embedder is available, and attached per image
url; the batch is written to the database only when non-empty and not in
dry-run mode. -/
def processBatch (md5hex : String → String) (cfg : BrandConfig)
    (dry_run embedderAvailable : Bool) (dbHas : String → Bool)
    (pageOf : String → ProductPage) (embedOf : String → Option (List ℚ))
    (product_urls : List String) : BatchResult :=
  let products_to_save := product_urls.filterMap
    (fun u => (extractProductData md5hex cfg dry_run dbHas (pageOf u) u).result)
  let image_urls := products_to_save.filterMap
    (fun d => match d.image_url with
      | some i => if i ≠ "" then some i else none
      | none => none)
  let embedInvoked := !image_urls.isEmpty && !dry_run && embedderAvailable
  let withEmbeddings :=
    if embedInvoked then
      products_to_save.map (fun d =>
        match d.image_url with
        | some i =>
          (match embedOf i with
           | some e => { d with embedding := some e }
           | none => d)
        | none => d)
    else products_to_save
  let dbWrites := if !products_to_save.isEmpty && !dry_run then [withEmbeddings] else []
  ⟨withEmbeddings, image_urls, embedInvoked, dbWrites⟩

/-- The per-page information the `while True:` pagination loop of
`_scrape_category_page` (lines 724–832) consumes: the urls
`_extract_product_urls` returns for the n-th visited page (these are
already filtered against `processed_urls`, hence fresh), how many records
`_process_product_batch` processes there, and whether `_go_to_next_page`
succeeds.  The network-interception and subcategory-probing arms of the
loop only ever add urls, so a page model with nonempty fresh urls already
covers them. -/
structure AFSite where
  pageUrls : Nat → List String
  processedCount : Nat → Nat
  nextPage : Nat → Bool

/-- State of the AF pagination loop: current page number and
`total_processed`. -/
structure AFState where
  page_num : Nat
  total_processed : Nat
  deriving DecidableEq

/-- Status of the AF pagination loop after a bounded number of
iterations: `.more` means the loop is still running. -/
inductive AFRun where
  | done (st : AFState)
  | more (st : AFState)
  deriving DecidableEq

/-- Python's `if max_products and total_processed >= max_products` (line
816): `None` and `0` are both falsy. -/
def maxProductsReached (max_products : Option Nat) (total : Nat) : Bool :=
  match max_products with
  | some m => m != 0 && decide (total ≥ m)
  | none => false

/-- The `while True:` pagination loop of `_scrape_category_page` (lines
724–832), iterated at most `fuel` times.  Exits, in source order: empty
url extraction (after the first-page retries), the optional
`max_products` cap, or a failed `_go_to_next_page`.  There is no offset
or page-count ceiling in this loop. -/
def scrapeCategoryLoop (site : AFSite) (max_products : Option Nat) :
    Nat → AFState → AFRun
  | 0, st => .more st
  | fuel + 1, st =>
    let product_urls := site.pageUrls st.page_num
    if product_urls = [] then .done st
    else
      let st' : AFState := ⟨st.page_num, st.total_processed + site.processedCount st.page_num⟩
      if maxProductsReached max_products st'.total_processed then .done st'
      else if !site.nextPage st.page_num then .done st'
      else scrapeCategoryLoop site max_products fuel ⟨st.page_num + 1, st'.total_processed⟩

/-- Pathological site behavior for the AF loop: every page yields a fresh
full page of 90 urls, every extraction succeeds, and an enabled next-page
control is always present. -/
def afPathologicalSite : AFSite :=
  ⟨fun n => List.replicate 90 (toString n), fun _ => 90, fun _ => true⟩

/-- Brand configuration fixture matching config/abercrombie_fitch.yaml. -/
def sampleConfig : BrandConfig :=
  ⟨"https://www.abercrombie.com", "abercrombie_fitch", "Abercrombie & Fitch",
   "MAN", "EUR", false⟩

/-- A well-behaved product page fixture. -/
def samplePage : ProductPage :=
  ⟨false, some "Relaxed Jeans", "Relaxed Jeans | Abercrombie & Fitch",
   some "€49.90", some "https://anf.scene7.com/is/image/anf/KIC_1_prod1", some "A pair of jeans."⟩

/-- A product page whose navigation (or `h1` wait) fails. -/
def failPage : ProductPage := ⟨true, none, "", none, none, none⟩

/-- A concrete product url carrying a `/p/` product code. -/
def sampleUrl : String := "https://www.abercrombie.com/shop/eu/p/relaxed-jeans-12345"

end AF

namespace ProductScraper

/-!
Model of `product_scraper.py` (`ProductScraper`): the offset-increment
pagination loop of `get_all_product_urls` (lines 286–388) and the
price/currency and gender extraction of `scrape_product_details` (lines
390–656).
-/

/-- Currency inference in `scrape_product_details` method 1
(product_scraper.py lines 461–469): symbol or code in the selector text,
with EUR as the EU-site default. -/
def inferCurrencyFromText (price_text : String) : String :=
  if pyContains price_text "€" || pyContains (pyToUpper price_text) "EUR" then "EUR"
  else if pyContains price_text "$" || pyContains (pyToUpper price_text) "USD" then "USD"
  else if pyContains price_text "£" || pyContains (pyToUpper price_text) "GBP" then "GBP"
  else "EUR"

/-- The selector-based price extraction of `scrape_product_details`
(product_scraper.py lines 443–472) applied to the text of the first
matching price selector, combined with the final defaulting
`product_data['currency'] = currency or 'EUR'` (line 516).  The text has
its commas REMOVED (`price_text.replace(',', '')`) before the numeric
search `re.search(r'[\d,]+\.?\d*', …)`, and the currency is inferred from
the symbol only when a number was found; the page-text and JSON-LD
fallbacks (methods 2–3) only run when this method found no number. -/
def parsePriceCurrency (price_text : String) : Option ℚ × String :=
  match Rex.searchLooseNum (removeCommas price_text).data with
  | some m => (some m.value, inferCurrencyFromText price_text)
  | none => (none, "EUR")

/-- The breadcrumb fallback of the gender extraction (product_scraper.py
lines 582–589), scanning breadcrumb texts in order with the source's
conditions `'men' in text or 'mens' in text` / `'women' in text or
'womens' in text` on the lowercased text. -/
def breadcrumbGender : List String → String
  | [] => "OTHER"
  | t :: rest =>
    if pyContains (pyToLower t) "men" || pyContains (pyToLower t) "mens" then "MAN"
    else if pyContains (pyToLower t) "women" || pyContains (pyToLower t) "womens" then "WOMAN"
    else breadcrumbGender rest

/-- The gender extraction of `scrape_product_details` (product_scraper.py
lines 574–592): URL path markers first (`'/mens' in product_url or
'/mens/' in product_url`, and the `womens` analogue), breadcrumb text
fallback, explicit `OTHER` default. -/
def extractGender (product_url : String) (breadcrumbTexts : List String) : String :=
  if pyContains product_url "/mens" || pyContains product_url "/mens/" then "MAN"
  else if pyContains product_url "/womens" || pyContains product_url "/womens/" then "WOMAN"
  else breadcrumbGender breadcrumbTexts

/-- What `get_all_product_urls` observes per offset: the urls
`get_product_urls_from_page` returns for the paginated url at that
offset, whether a next-page control is found after re-navigation, whether
the page content advertises the next `start=` offset, and whether the
whole next-page check block raises (a navigation timeout — caught, logged
as a warning, and skipped). -/
structure SiteOracle where
  fetchUrls : Nat → List String
  nextButton : Nat → Bool
  contentHasNextStart : Nat → Bool
  checkRaises : Nat → Bool

/-- `ITEMS_PER_PAGE` from config.py. -/
def itemsPerPage : Nat := 90

/-- Pagination loop state: `start` offset, `page_num`, and the
accumulated url list. -/
structure LoopState where
  start : Nat
  page_num : Nat
  acc : List String

/-- Result of the pagination loop under a fuel bound. -/
inductive PageRun where
  | done (urls : List String)
  | fuelOut

/-- Whether the loop reached one of its `break` statements. -/
def PageRun.isDone : PageRun → Bool
  | .done _ => true
  | .fuelOut => false

/-- Number of urls accumulated by a finished loop. -/
def PageRun.urlCount : PageRun → Nat
  | .done l => l.length
  | .fuelOut => 0

/-- Python's `if max_pages and page_num >= max_pages` (line 328): `None`
and `0` are both falsy. -/
def maxPagesReached (max_pages : Option Nat) (page_num : Nat) : Bool :=
  match max_pages with
  | some m => m != 0 && decide (page_num ≥ m)
  | none => false

/-- The `while True:` pagination loop of `get_all_product_urls`
(product_scraper.py lines 327–379), one fuel unit per iteration.  Break
conditions in source order: the `max_pages` budget, an empty url fetch,
the next-page check (no next control and no advertised next offset →
"Reached last page"; fewer urls than a full page → "likely last page";
both skipped when the check block raises), and — after
`start += items_per_page` — the absolute safety ceiling
`if start > 1000`, which logs a warning and breaks out normally.
`api_scraper.APIScraper.scrape_subcategory` (lines 527–563) has the same
offset loop shape, with the identical `start > 1000` ceiling. -/
def nextCheckBreaks (site : SiteOracle) (start : Nat) (count : Nat) : Bool :=
  if site.checkRaises start then false
  else if !site.nextButton start && !site.contentHasNextStart start then true
  else decide (count < itemsPerPage)

/-- The outer loop; `nextCheckBreaks` above is the body's next-page check
(lines 346–371, inside its `try`). -/
def getAllProductUrlsLoop (site : SiteOracle) (max_pages : Option Nat) :
    Nat → LoopState → PageRun
  | 0, _ => .fuelOut
  | fuel + 1, st =>
    if maxPagesReached max_pages st.page_num then .done st.acc
    else
      let product_urls := site.fetchUrls st.start
      if product_urls = [] then .done st.acc
      else
        let acc' := st.acc ++ product_urls
        if nextCheckBreaks site st.start product_urls.length then .done acc'
        else
          let start' := st.start + itemsPerPage
          if start' > 1000 then .done acc'
          else getAllProductUrlsLoop site max_pages fuel ⟨start', st.page_num + 1, acc'⟩

/-- Pathological site behavior for the offset loop: a full page of urls
at every offset, always a next-page control, never an exception. -/
def psPathologicalSite : SiteOracle :=
  ⟨fun s => List.replicate itemsPerPage (toString s),
   fun _ => true, fun _ => true, fun _ => false⟩

end ProductScraper

namespace APIScraper

/-- `APIScraper.extract_gender` (api_scraper.py lines 393–411): the API
gender field first (uppercased comparisons), then the `/mens` / `/womens`
markers on the lowercased product page url, else `OTHER`.  The broad
`except: pass` cannot fire in this total model. -/
def extract_gender (genderField : String) (url : String) : String :=
  if (pyToUpper genderField) = "M" ∨ (pyToUpper genderField) = "MALE" ∨ (pyToUpper genderField) = "MAN" then "MAN"
  else if (pyToUpper genderField) = "F" ∨ (pyToUpper genderField) = "FEMALE" ∨ (pyToUpper genderField) = "WOMAN" then "WOMAN"
  else if pyContains (pyToLower url) "/mens" || pyContains (pyToLower url) "/mens/" then "MAN"
  else if pyContains (pyToLower url) "/womens" || pyContains (pyToLower url) "/womens/" then "WOMAN"
  else "OTHER"

end APIScraper

namespace SupabaseClient

/-- A row as handed to `SupabaseClient.insert_products_batch`
(supabase_client.py lines 61–92).  The scraper always supplies `id`, but
the method itself fills a random `uuid.uuid4()` into any row missing one.
The `created_at` timestamp is irrelevant to every claim and omitted. -/
structure DbRow where
  id : Option String
  product_url : String
  title : String
  deriving DecidableEq

/-- The id-filling pass of `insert_products_batch` (lines 75–80), with
the stream of `uuid.uuid4()` draws made explicit as a function of the row
index — the only randomness anywhere near id generation. -/
def addBatchIds (uuid4 : Nat → String) (products : List DbRow) : List DbRow :=
  products.enum.map (fun nr =>
    match nr.2.id with
    | some _ => nr.2
    | none => { nr.2 with id := some (uuid4 nr.1) })

/-- The row shape an extracted `ProductData` record contributes to the
batch insert. -/
def rowOfProduct (d : AF.ProductData) : DbRow := ⟨some d.id, d.product_url, d.title⟩

end SupabaseClient

namespace DatabasePy

/-- `Database.product_exists` (database.py lines 86–104) and its twin
`SupabaseClient.product_exists` (supabase_client.py lines 94–115): run
the select, return `len(response.data) > 0`; any exception from the
client is caught, logged, and turned into `False`.  The select result is
modelled as `Except`, `.error` being the raised exception. -/
def product_exists (queryResult : Except String (List String)) : Bool :=
  match queryResult with
  | .ok rows => decide (rows.length > 0)
  | .error _ => false

end DatabasePy

/-!
Theorems.  The namespaces above are reopened for the helper lemmas; the
claim theorems themselves live at top level.
-/

namespace MainScript

theorem dedup_cons_some (seen : List String) (p : RawProduct) (ps : List RawProduct)
    (url : String) (h : p.product_url = some url) :
    dedupUniqueProducts seen (p :: ps) =
      if url ≠ "" ∧ url ∉ seen then p :: dedupUniqueProducts (url :: seen) ps
      else dedupUniqueProducts seen ps := by
  simp only [dedupUniqueProducts, h]

theorem dedup_cons_none (seen : List String) (p : RawProduct) (ps : List RawProduct)
    (h : p.product_url = none) :
    dedupUniqueProducts seen (p :: ps) = dedupUniqueProducts seen ps := by
  simp only [dedupUniqueProducts, h]

theorem dedup_sublist (seen : List String) (ps : List RawProduct) :
    List.Sublist (dedupUniqueProducts seen ps) ps := by
  induction ps generalizing seen with
  | nil => simp [dedupUniqueProducts]
  | cons p ps ih =>
    rcases h : p.product_url with _ | url
    · rw [dedup_cons_none seen p ps h]
      exact (ih seen).cons p
    · rw [dedup_cons_some seen p ps url h]
      by_cases hc : url ≠ "" ∧ url ∉ seen
      · rw [if_pos hc]
        exact (ih (url :: seen)).cons₂ p
      · rw [if_neg hc]
        exact (ih seen).cons p

theorem dedup_mem_valid (seen : List String) (ps : List RawProduct) :
    ∀ p ∈ dedupUniqueProducts seen ps,
      ∃ u, p.product_url = some u ∧ u ≠ "" ∧ u ∉ seen := by
  induction ps generalizing seen with
  | nil => simp [dedupUniqueProducts]
  | cons p ps ih =>
    intro q hq
    rcases h : p.product_url with _ | url
    · rw [dedup_cons_none seen p ps h] at hq
      exact ih seen q hq
    · rw [dedup_cons_some seen p ps url h] at hq
      by_cases hc : url ≠ "" ∧ url ∉ seen
      · rw [if_pos hc] at hq
        rcases List.mem_cons.mp hq with hq | hq
        · exact hq ▸ ⟨url, h, hc.1, hc.2⟩
        · rcases ih (url :: seen) q hq with ⟨u, hu, hne, hnm⟩
          exact ⟨u, hu, hne, fun hmem => hnm (List.mem_cons_of_mem _ hmem)⟩
      · rw [if_neg hc] at hq
        exact ih seen q hq

theorem dedup_urls_nodup (seen : List String) (ps : List RawProduct) :
    (urlsOf (dedupUniqueProducts seen ps)).Nodup := by
  induction ps generalizing seen with
  | nil => simp [dedupUniqueProducts, urlsOf]
  | cons p ps ih =>
    rcases h : p.product_url with _ | url
    · rw [dedup_cons_none seen p ps h]
      exact ih seen
    · rw [dedup_cons_some seen p ps url h]
      by_cases hc : url ≠ "" ∧ url ∉ seen
      · rw [if_pos hc]
        have hrest := ih (url :: seen)
        simp only [urlsOf, List.filterMap_cons, h]
        refine List.Nodup.cons ?_ hrest
        intro hmem
        simp only [urlsOf, List.mem_filterMap] at hmem
        rcases hmem with ⟨q, hq, hqu⟩
        rcases dedup_mem_valid (url :: seen) ps q hq with ⟨u, hu, _, hnm⟩
        rw [hu] at hqu
        exact hnm (by simp [Option.some_inj.mp hqu])
      · rw [if_neg hc]
        exact ih seen

theorem dedup_covers (seen : List String) (ps : List RawProduct) :
    ∀ p ∈ ps, ∀ u, p.product_url = some u → u ≠ "" → u ∉ seen →
      u ∈ urlsOf (dedupUniqueProducts seen ps) := by
  induction ps generalizing seen with
  | nil => simp
  | cons p ps ih =>
    intro q hq u hqu hne hns
    rcases List.mem_cons.mp hq with hq | hq
    · subst hq
      rw [dedup_cons_some seen q ps u hqu, if_pos ⟨hne, hns⟩]
      simp [urlsOf, hqu]
    · rcases h : p.product_url with _ | url
      · rw [dedup_cons_none seen p ps h]
        exact ih seen q hq u hqu hne hns
      · rw [dedup_cons_some seen p ps url h]
        by_cases hc : url ≠ "" ∧ url ∉ seen
        · rw [if_pos hc]
          by_cases huu : u = url
          · simp [urlsOf, h, huu]
          · have hmem := ih (url :: seen) q hq u hqu hne (by
              intro hm
              rcases List.mem_cons.mp hm with hm | hm
              · exact huu hm
              · exact hns hm)
            simp only [urlsOf, List.filterMap_cons, h]
            exact List.mem_cons_of_mem _ hmem
        · rw [if_neg hc]
          exact ih seen q hq u hqu hne hns

theorem dedup_first_seen (seen : List String) (ps : List RawProduct)
    (u : String) (hne : u ≠ "") (hns : u ∉ seen) :
    (dedupUniqueProducts seen ps).find? (fun p => p.product_url == some u)
      = ps.find? (fun p => p.product_url == some u) := by
  induction ps generalizing seen with
  | nil => simp [dedupUniqueProducts]
  | cons p ps ih =>
    rcases h : p.product_url with _ | url
    · rw [dedup_cons_none seen p ps h, List.find?_cons_of_neg]
      · exact ih seen hns
      · simp [h]
    · rw [dedup_cons_some seen p ps url h]
      by_cases hc : url ≠ "" ∧ url ∉ seen
      · rw [if_pos hc]
        by_cases huu : url = u
        · subst huu
          simp [List.find?, h]
        · rw [List.find?_cons_of_neg, List.find?_cons_of_neg]
          · exact ih (url :: seen) (by
              intro hm
              rcases List.mem_cons.mp hm with hm | hm
              · exact huu hm.symm
              · exact hns hm)
          · simp [h, huu]
          · simp [h, huu]
      · rw [if_neg hc, List.find?_cons_of_neg]
        · exact ih seen hns
        · simp only [h, beq_iff_eq, Option.some_inj]
          intro hequ
          subst hequ
          rcases not_and_or.mp hc with hc | hc
          · exact (hc (by simpa using hne)).elim
          · exact (hns (by simpa using hc)).elim

end MainScript

open MainScript in
/-- C1: for every list of records accumulated across one or more category
runs, the `run_full_scrape` deduplication returns the sublist of the
input in which each distinct canonical product url appears exactly once,
keeping the first-seen occurrence in first-seen order (for urls
`[A, B, A, C, B]` the result is exactly `[A, B, C]`, count 3), and
records lacking a product url are dropped rather than emitted. -/
theorem main_dedup_unique_products_spec :
    (∀ ps : List RawProduct,
        (urlsOf (dedupUniqueProducts [] ps)).Nodup
      ∧ List.Sublist (dedupUniqueProducts [] ps) ps
      ∧ (∀ p ∈ dedupUniqueProducts [] ps, ∃ u, p.product_url = some u ∧ u ≠ "")
      ∧ (∀ p ∈ ps, ∀ u, p.product_url = some u → u ≠ "" →
            u ∈ urlsOf (dedupUniqueProducts [] ps))
      ∧ (∀ u, u ≠ "" →
            (dedupUniqueProducts [] ps).find? (fun p => p.product_url == some u)
              = ps.find? (fun p => p.product_url == some u)))
  ∧ urlsOf (dedupUniqueProducts [] exampleABACB) = ["A", "B", "C"]
  ∧ (dedupUniqueProducts [] exampleABACB).length = 3 := by
  refine ⟨fun ps => ⟨dedup_urls_nodup [] ps, dedup_sublist [] ps, ?_, ?_, ?_⟩, ?_, ?_⟩
  · intro p hp
    rcases dedup_mem_valid [] ps p hp with ⟨u, hu, hne, _⟩
    exact ⟨u, hu, hne⟩
  · intro p hp u hu hne
    exact dedup_covers [] ps p hp u hu hne (by simp)
  · intro u hne
    exact dedup_first_seen [] ps u hne (by simp)
  · decide
  · decide

/-- Witness for C1: the coverage clause applied at the concrete
`[A, B, A, C, B]` record list and the record carrying url `A`. -/
theorem main_dedup_unique_products_spec_witness :
    "A" ∈ MainScript.urlsOf (MainScript.dedupUniqueProducts [] MainScript.exampleABACB) :=
  (main_dedup_unique_products_spec.1 MainScript.exampleABACB).2.2.2.1
    ⟨some "A", "t1"⟩ (by decide) "A" rfl (by decide)

namespace EmbeddingGenerator

theorem fitToDim_length (e : List ℚ) : (fitToDim e).length = 768 := by
  unfold fitToDim embeddingDim
  split
  · next h => simp; omega
  · split
    · next h => simp; omega
    · next h1 h2 => omega

end EmbeddingGenerator

open MainScript EmbeddingGenerator in
/-- C8: for every product record with a non-empty image url, any failure
of the embedding stage (image download failure, model failure — and a
raw-dimension mismatch is repaired to length 768, never fatal) yields a
`None` embedding instead of an exception, and the record is still
included in the final output unchanged, with its embedding field unset. -/
theorem embedding_failure_record_kept :
    (∀ (Img : Type) (download : String → Option Img)
        (modelEmbed : Img → Option (List ℚ)) (u : String),
        (download u = none → generateEmbedding download modelEmbed u = none)
      ∧ (∀ img, download u = some img → modelEmbed img = none →
            generateEmbedding download modelEmbed u = none)
      ∧ (∀ e, generateEmbedding download modelEmbed u = some e → e.length = 768))
  ∧ (∀ gen ps, (generateEmbeddingsRun gen ps).length = ps.length)
  ∧ (∀ gen ps p, p ∈ ps →
        (∀ u, p.image_url = some u → u ≠ "" → gen u = none) →
        p ∈ generateEmbeddingsRun gen ps) := by
  refine ⟨fun Img download modelEmbed u => ⟨?_, ?_, ?_⟩, ?_, ?_⟩
  · intro h
    simp [generateEmbedding, h]
  · intro img hdl hme
    simp [generateEmbedding, hdl, hme]
  · intro e he
    unfold generateEmbedding at he
    split at he
    · cases he
    · split at he
      · cases he
      · cases he
        exact fitToDim_length _
  · intro gen ps
    simp [generateEmbeddingsRun]
  · intro gen ps p hp hfail
    have hstep : generateEmbeddingsStep gen p = p := by
      rcases h : p.image_url with _ | u
      · simp only [generateEmbeddingsStep, h]
      · simp only [generateEmbeddingsStep, h]
        by_cases hu : u ≠ ""
        · rw [if_pos hu, hfail u h hu]
        · rw [if_neg hu]
    have hm := List.mem_map_of_mem (generateEmbeddingsStep gen) hp
    rw [hstep] at hm
    exact hm

/-- Witness for C8: with an embedding generator that fails on every url,
the sample record is still present, unchanged, in the stage output. -/
theorem embedding_failure_record_kept_witness :
    MainScript.sampleMProduct ∈
      MainScript.generateEmbeddingsRun (fun _ => none) [MainScript.sampleMProduct] :=
  embedding_failure_record_kept.2.2 (fun _ => none)
    [MainScript.sampleMProduct] MainScript.sampleMProduct
    (by simp) (fun _ _ _ => rfl)

namespace Rex

theorem value_45_90 : NumMatch.value ⟨['4','5'], some ['9','0']⟩ = (459 : ℚ)/10 := by
  have hi : digitsToNat ['4','5'] = 45 := by decide
  have hf : digitsToNat ['9','0'] = 90 := by decide
  simp only [NumMatch.value, hi, hf]
  norm_num

theorem value_12 : NumMatch.value ⟨['1','2'], none⟩ = (12 : ℚ) := by
  have hi : digitsToNat ['1','2'] = 12 := by decide
  simp only [NumMatch.value, hi]
  norm_num

theorem value_4590 : NumMatch.value ⟨['4','5','9','0'], none⟩ = (4590 : ℚ) := by
  have hi : digitsToNat ['4','5','9','0'] = 4590 := by decide
  simp only [NumMatch.value, hi]
  norm_num

end Rex

namespace AF

theorem parsePrice_eur_dot : parsePrice (some "€45.90") = some ((459 : ℚ)/10) := by
  have h1 : Rex.searchSymNum '€' true "€45.90".data = some ⟨['4','5'], some ['9','0']⟩ := by
    decide
  simp only [parsePrice, h1]
  rw [if_neg (by decide)]
  rw [Rex.value_45_90]

theorem parsePrice_comma_eur : parsePrice (some "45,90 €") = some ((459 : ℚ)/10) := by
  have h1 : Rex.searchSymNum '€' true "45,90 €".data = none := by decide
  have h2 : Rex.searchSymNum '$' false "45,90 €".data = none := by decide
  have h3 : Rex.searchNumSym '€' "45,90 €".data = some ⟨['4','5'], some ['9','0']⟩ := by
    decide
  simp only [parsePrice, h1, h2, h3]
  rw [if_neg (by decide)]
  rw [Rex.value_45_90]

theorem parsePrice_dollar : parsePrice (some "$12") = some (12 : ℚ) := by
  have h1 : Rex.searchSymNum '€' true "$12".data = none := by decide
  have h2 : Rex.searchSymNum '$' false "$12".data = some ⟨['1','2'], none⟩ := by decide
  simp only [parsePrice, h1, h2]
  rw [if_neg (by decide)]
  rw [Rex.value_12]

theorem parsePrice_unparseable : parsePrice (some "no price here") = none := by
  have h1 : Rex.searchSymNum '€' true "no price here".data = none := by decide
  have h2 : Rex.searchSymNum '$' false "no price here".data = none := by decide
  have h3 : Rex.searchNumSym '€' "no price here".data = none := by decide
  have h4 : Rex.searchNumSym '$' "no price here".data = none := by decide
  simp only [parsePrice, h1, h2, h3, h4]
  rw [if_neg (by decide)]

end AF

namespace ProductScraper

theorem parsePriceCurrency_comma :
    parsePriceCurrency "45,90 €" = (some (4590 : ℚ), "EUR") := by
  have h : Rex.searchLooseNum (removeCommas "45,90 €").data
      = some ⟨['4','5','9','0'], none⟩ := by decide
  have hc : inferCurrencyFromText "45,90 €" = "EUR" := by decide
  simp only [parsePriceCurrency, h, hc]
  rw [Rex.value_4590]

theorem parsePriceCurrency_eur_dot :
    parsePriceCurrency "€45.90" = (some ((459 : ℚ)/10), "EUR") := by
  have h : Rex.searchLooseNum (removeCommas "€45.90").data
      = some ⟨['4','5'], some ['9','0']⟩ := by decide
  have hc : inferCurrencyFromText "€45.90" = "EUR" := by decide
  simp only [parsePriceCurrency, h, hc]
  rw [Rex.value_45_90]

theorem parsePriceCurrency_dollar :
    parsePriceCurrency "$12" = (some (12 : ℚ), "USD") := by
  have h : Rex.searchLooseNum (removeCommas "$12").data = some ⟨['1','2'], none⟩ := by
    decide
  have hc : inferCurrencyFromText "$12" = "USD" := by decide
  simp only [parsePriceCurrency, h, hc]
  rw [Rex.value_12]

theorem parsePriceCurrency_unparseable :
    parsePriceCurrency "out of stock" = (none, "EUR") := by
  have h : Rex.searchLooseNum (removeCommas "out of stock").data = none := by decide
  simp only [parsePriceCurrency, h]

end ProductScraper

/-- Counterexample to C6: on the spec's own example `"45,90 €"`, the
price parsing of `scrape_product_details` strips the comma instead of
normalizing it to a dot — `price_text.replace(',', '')` runs before the
numeric search — so the parse yields `4590.0`, not `45.90`.  (The
currency inference and the EUR default behave as claimed.) -/
theorem price_comma_counterexample :
    ProductScraper.parsePriceCurrency "45,90 €" = (some (4590 : ℚ), "EUR")
  ∧ decide ((4590 : ℚ) = (459 : ℚ)/10) = false :=
  ⟨ProductScraper.parsePriceCurrency_comma, decide_eq_false (by norm_num)⟩

/-- C6 as amended: `product_scraper`'s price parsing extracts the first
numeric substring of the comma-stripped selector text and infers the
currency from the adjacent symbol with the EUR site default
(`"€45.90"` → `(45.90, EUR)`; `"$12"` → `(12.0, USD)`; but
`"45,90 €"` → `(4590.0, EUR)`, the comma being removed rather than
normalized); unparseable text yields `(None, "EUR")` rather than an
error.  The Abercrombie scraper's `_parse_price` does normalize a comma
decimal separator to a dot (`"€45.90"`, `"45,90 €"` → `45.90`, `"$12"` →
`12.0`, unparseable → `None`), but it returns the price only — its caller
always fills the configured default currency, never the matched
symbol. -/
theorem price_parsing_behavior :
    ProductScraper.parsePriceCurrency "€45.90" = (some ((459 : ℚ)/10), "EUR")
  ∧ ProductScraper.parsePriceCurrency "$12" = (some (12 : ℚ), "USD")
  ∧ ProductScraper.parsePriceCurrency "45,90 €" = (some (4590 : ℚ), "EUR")
  ∧ ProductScraper.parsePriceCurrency "out of stock" = (none, "EUR")
  ∧ AF.parsePrice (some "€45.90") = some ((459 : ℚ)/10)
  ∧ AF.parsePrice (some "45,90 €") = some ((459 : ℚ)/10)
  ∧ AF.parsePrice (some "$12") = some (12 : ℚ)
  ∧ AF.parsePrice (some "no price here") = none
  ∧ AF.parsePrice none = none :=
  ⟨ProductScraper.parsePriceCurrency_eur_dot,
   ProductScraper.parsePriceCurrency_dollar,
   ProductScraper.parsePriceCurrency_comma,
   ProductScraper.parsePriceCurrency_unparseable,
   AF.parsePrice_eur_dot, AF.parsePrice_comma_eur, AF.parsePrice_dollar,
   AF.parsePrice_unparseable, rfl⟩

namespace ProductScraper

theorem breadcrumbGender_enum (l : List String) :
    breadcrumbGender l = "MAN" ∨ breadcrumbGender l = "WOMAN"
      ∨ breadcrumbGender l = "OTHER" := by
  induction l with
  | nil => exact Or.inr (Or.inr rfl)
  | cons t rest ih =>
    simp only [breadcrumbGender]
    split
    · exact Or.inl rfl
    · split
      · exact Or.inr (Or.inl rfl)
      · exact ih

theorem extractGender_enum (u : String) (bc : List String) :
    extractGender u bc = "MAN" ∨ extractGender u bc = "WOMAN"
      ∨ extractGender u bc = "OTHER" := by
  unfold extractGender
  split
  · exact Or.inl rfl
  · split
    · exact Or.inr (Or.inl rfl)
    · exact breadcrumbGender_enum bc

end ProductScraper

namespace APIScraper

theorem extract_gender_enum (g u : String) :
    extract_gender g u = "MAN" ∨ extract_gender g u = "WOMAN"
      ∨ extract_gender g u = "OTHER" := by
  unfold extract_gender
  split
  · exact Or.inl rfl
  · split
    · exact Or.inr (Or.inl rfl)
    · split
      · exact Or.inl rfl
      · split
        · exact Or.inr (Or.inl rfl)
        · exact Or.inr (Or.inr rfl)

end APIScraper

/-- C7: gender inference returns `MAN` for a product url containing a
men's path segment, `WOMAN` for a women's one, falls back to gender
markers in breadcrumb text when the url has neither, and returns the
explicit value `OTHER` when no marker matches — on every input (either
implementation) the result is one of `MAN`/`WOMAN`/`OTHER`, never
unset. -/
theorem gender_inference_spec :
    (∀ (u : String) (bc : List String),
        ProductScraper.extractGender u bc = "MAN"
      ∨ ProductScraper.extractGender u bc = "WOMAN"
      ∨ ProductScraper.extractGender u bc = "OTHER")
  ∧ (∀ g u : String,
        APIScraper.extract_gender g u = "MAN"
      ∨ APIScraper.extract_gender g u = "WOMAN"
      ∨ APIScraper.extract_gender g u = "OTHER")
  ∧ ProductScraper.extractGender
      "https://www.abercrombie.com/shop/eu/mens-bottoms/p/123" [] = "MAN"
  ∧ ProductScraper.extractGender
      "https://www.abercrombie.com/shop/eu/womens-tops/p/456" [] = "WOMAN"
  ∧ ProductScraper.extractGender
      "https://www.abercrombie.com/shop/eu/shoes/p/9" ["Home", "Shoes"] = "OTHER"
  ∧ ProductScraper.extractGender
      "https://www.abercrombie.com/shop/eu/shoes/p/9" ["Men"] = "MAN"
  ∧ APIScraper.extract_gender "M" "" = "MAN"
  ∧ APIScraper.extract_gender "" "/shop/eu/womens-x/p/1" = "WOMAN"
  ∧ APIScraper.extract_gender "" "" = "OTHER" :=
  ⟨ProductScraper.extractGender_enum, APIScraper.extract_gender_enum,
   by decide, by decide, by decide, by decide, by decide, by decide, by decide⟩

namespace ProductScraper

theorem ps_loop_done (site : SiteOracle) (mp : Option Nat) :
    ∀ (fuel : Nat) (st : LoopState),
      1000 < st.start + itemsPerPage * fuel →
      (getAllProductUrlsLoop site mp (fuel + 1) st).isDone = true := by
  intro fuel
  induction fuel with
  | zero =>
    intro st hst
    rw [getAllProductUrlsLoop]
    dsimp only
    split
    · rfl
    · split
      · rfl
      · split
        · rfl
        · split
          · rfl
          · next h =>
            exfalso
            simp only [itemsPerPage] at hst h
            omega
  | succ n ih =>
    intro st hst
    rw [getAllProductUrlsLoop]
    dsimp only
    split
    · rfl
    · split
      · rfl
      · split
        · rfl
        · split
          · rfl
          · refine ih _ ?_
            show 1000 < st.start + itemsPerPage + itemsPerPage * n
            simp only [itemsPerPage] at hst ⊢
            omega

end ProductScraper

set_option maxRecDepth 10000

/-- Counterexample to C3: the `while True:` pagination loop of
`AbercrombieFitchScraper._scrape_category_page` has no absolute offset
ceiling: against a pathological site that always returns a fresh full
page of urls and always offers an enabled next-page control (and with no
`max_products` cap configured), the loop is still running after 100 pages
and 9000 processed items — far past the 1000-item ceiling the offset
drivers use — so no ceiling independent of configured budgets halts
it. -/
theorem af_pagination_no_ceiling_counterexample :
    AF.scrapeCategoryLoop AF.afPathologicalSite none 100 ⟨1, 0⟩
      = AF.AFRun.more ⟨101, 9000⟩ := by decide

/-- C3 as amended: the offset-increment pagination drivers
(`ProductScraper.get_all_product_urls`, and identically
`APIScraper.scrape_subcategory`) always terminate: the absolute offset
ceiling `start > 1000`, independent of the configured `max_pages` budget,
halts the loop within 13 iterations for every site behavior — even a
pathological site that always returns a full page and always offers a
next-page affordance — and hitting the ceiling is a normal `break`
(DONE, with the accumulated urls: 12 pages × 90 = 1080 for the
pathological site), logged as a warning rather than raised as an error.
The next-button-driven loop of
`AbercrombieFitchScraper._scrape_category_page`, however, has no such
ceiling (see the counterexample). -/
theorem ps_pagination_offset_ceiling_terminates :
    (∀ (site : ProductScraper.SiteOracle) (mp : Option Nat),
        (ProductScraper.getAllProductUrlsLoop site mp 13 ⟨0, 0, []⟩).isDone = true)
  ∧ (ProductScraper.getAllProductUrlsLoop
        ProductScraper.psPathologicalSite none 13 ⟨0, 0, []⟩).isDone = true
  ∧ (ProductScraper.getAllProductUrlsLoop
        ProductScraper.psPathologicalSite none 13 ⟨0, 0, []⟩).urlCount = 1080 := by
  refine ⟨fun site mp =>
    ProductScraper.ps_loop_done site mp 12 ⟨0, 0, []⟩
      (by simp [ProductScraper.itemsPerPage]), ?_, ?_⟩
  · decide
  · decide

namespace AF

theorem pushUrl_inv (processed₀ : List String) (c : String) (st : DiscoverState)
    (h1 : st.urls.Nodup) (h2 : ∀ u ∈ st.urls, u ∈ st.seen_hrefs)
    (h3 : ∀ u ∈ processed₀, u ∈ st.processed_urls)
    (h4 : ∀ u ∈ st.urls, u ∉ processed₀) :
    (pushUrl c st).urls.Nodup
  ∧ (∀ u ∈ (pushUrl c st).urls, u ∈ (pushUrl c st).seen_hrefs)
  ∧ (∀ u ∈ processed₀, u ∈ (pushUrl c st).processed_urls)
  ∧ (∀ u ∈ (pushUrl c st).urls, u ∉ processed₀) := by
  unfold pushUrl
  split
  · next hcond =>
    refine ⟨?_, ?_, ?_, ?_⟩
    · rw [List.nodup_append]
      refine ⟨h1, List.nodup_singleton c, ?_⟩
      intro a ha hac
      rw [List.mem_singleton] at hac
      subst hac
      exact hcond.2 (h2 a ha)
    · intro u hu
      rcases List.mem_append.mp hu with hu | hu
      · exact List.mem_cons_of_mem _ (h2 u hu)
      · rw [List.mem_singleton] at hu
        subst hu
        exact List.mem_cons_self _ _
    · intro u hu
      exact List.mem_cons_of_mem _ (h3 u hu)
    · intro u hu
      rcases List.mem_append.mp hu with hu | hu
      · exact h4 u hu
      · rw [List.mem_singleton] at hu
        subst hu
        intro hmem
        exact hcond.1 (h3 u hmem)
  · exact ⟨h1, h2, h3, h4⟩

theorem pushCandidate_inv (processed₀ : List String) (cand : Option String)
    (st : DiscoverState)
    (h1 : st.urls.Nodup) (h2 : ∀ u ∈ st.urls, u ∈ st.seen_hrefs)
    (h3 : ∀ u ∈ processed₀, u ∈ st.processed_urls)
    (h4 : ∀ u ∈ st.urls, u ∉ processed₀) :
    (pushCandidate st cand).urls.Nodup
  ∧ (∀ u ∈ (pushCandidate st cand).urls, u ∈ (pushCandidate st cand).seen_hrefs)
  ∧ (∀ u ∈ processed₀, u ∈ (pushCandidate st cand).processed_urls)
  ∧ (∀ u ∈ (pushCandidate st cand).urls, u ∉ processed₀) := by
  rcases cand with _ | c
  · exact ⟨h1, h2, h3, h4⟩
  · exact pushUrl_inv processed₀ c st h1 h2 h3 h4

theorem runMethod_inv (processed₀ : List String) (cands : List (Option String)) :
    ∀ (st : DiscoverState),
      st.urls.Nodup → (∀ u ∈ st.urls, u ∈ st.seen_hrefs) →
      (∀ u ∈ processed₀, u ∈ st.processed_urls) → (∀ u ∈ st.urls, u ∉ processed₀) →
      (runMethod st cands).urls.Nodup
    ∧ (∀ u ∈ (runMethod st cands).urls, u ∈ (runMethod st cands).seen_hrefs)
    ∧ (∀ u ∈ processed₀, u ∈ (runMethod st cands).processed_urls)
    ∧ (∀ u ∈ (runMethod st cands).urls, u ∉ processed₀) := by
  induction cands with
  | nil => intro st h1 h2 h3 h4; exact ⟨h1, h2, h3, h4⟩
  | cons cand rest ih =>
    intro st h1 h2 h3 h4
    rcases pushCandidate_inv processed₀ cand st h1 h2 h3 h4 with ⟨g1, g2, g3, g4⟩
    exact ih (pushCandidate st cand) g1 g2 g3 g4

end AF

/-- Counterexample to C4: a category page whose only product signal is a
JSON-LD block advertising the product by a root-relative url.  Discovery
emits that url exactly as found — the JSON-LD strategy never resolves its
strings against the base url — so the returned element does not parse as
an absolute URL (it fails the very `startswith('http')` test the code
itself uses for absoluteness). -/
theorem discovery_relative_url_counterexample :
    (AF.extractProductUrls "https://www.abercrombie.com" [] AF.jsonLdOnlyPage).urls
      = ["/shop/eu/p/12345"]
  ∧ pyStartsWith "/shop/eu/p/12345" "http" = false
  ∧ pyStartsWith "/shop/eu/p/12345" "/" = true :=
  ⟨by decide, by decide, by decide⟩

/-- C4 as amended: every url list returned by Product URL Discovery for a
single page contains no duplicates, and none of its elements was already
in the scraper-lifetime `processed_urls` set; but elements contributed by
the JSON-LD and inline-script strategies are emitted as found (only
query/fragment-stripped, not resolved against the base url), so an
element need not be an absolute URL. -/
theorem discovery_urls_nodup :
    ∀ (base : String) (processed : List String) (pg : AF.CategoryPage),
      (AF.extractProductUrls base processed pg).urls.Nodup
    ∧ ∀ u ∈ (AF.extractProductUrls base processed pg).urls, u ∉ processed := by
  intro base processed pg
  unfold AF.extractProductUrls
  have h0 : (⟨[], [], processed⟩ : AF.DiscoverState).urls.Nodup := List.nodup_nil
  rcases AF.runMethod_inv processed (pg.anchorHrefs.map (AF.anchorCandidate base))
      ⟨[], [], processed⟩ h0 (by simp) (fun u hu => hu) (by simp)
    with ⟨g1, g2, g3, g4⟩
  rcases AF.runMethod_inv processed
      ((pg.jsonLd.flatMap AF.extractUrlsJson).map (fun u => some (cleanUrl u)))
      _ g1 g2 g3 g4 with ⟨k1, k2, k3, k4⟩
  rcases AF.runMethod_inv processed (pg.scriptMatches.map (fun m => some (cleanUrl m)))
      _ k1 k2 k3 k4 with ⟨l1, l2, l3, l4⟩
  rcases AF.runMethod_inv processed (pg.cardHrefs.map (AF.cardCandidate base))
      _ l1 l2 l3 l4 with ⟨m1, m2, m3, m4⟩
  exact ⟨m1, m4⟩

/-- Witness for C4's amended theorem at the concrete JSON-LD page with a
nonempty `processed_urls` set. -/
theorem discovery_urls_nodup_witness :
    (AF.extractProductUrls "https://www.abercrombie.com"
        ["https://www.abercrombie.com/shop/eu/p/seen"] AF.jsonLdOnlyPage).urls.Nodup
  ∧ "/shop/eu/p/12345" ∉ ["https://www.abercrombie.com/shop/eu/p/seen"] :=
  ⟨(discovery_urls_nodup "https://www.abercrombie.com"
      ["https://www.abercrombie.com/shop/eu/p/seen"] AF.jsonLdOnlyPage).1,
   (discovery_urls_nodup "https://www.abercrombie.com"
      ["https://www.abercrombie.com/shop/eu/p/seen"] AF.jsonLdOnlyPage).2
     "/shop/eu/p/12345" (by decide)⟩

/-- Counterexample to C5: with the store already holding the sample url
(dry-run off), `_extract_product_data` still performs the detail-field
extraction — the existence check runs only after the page has been
scraped — and it returns `None`, the very same outcome a failed
extraction produces, not a distinct "already exists" value. -/
theorem duplicate_skip_after_scrape_counterexample :
    (AF.extractProductData (fun _ => "") AF.sampleConfig false
        (fun u => u == AF.sampleUrl) AF.samplePage AF.sampleUrl).fieldsExtracted = true
  ∧ (AF.extractProductData (fun _ => "") AF.sampleConfig false
        (fun u => u == AF.sampleUrl) AF.samplePage AF.sampleUrl).result = none
  ∧ (AF.extractProductData (fun _ => "") AF.sampleConfig false
        (fun _ => false) AF.failPage AF.sampleUrl).result = none :=
  ⟨by decide, by decide, by decide⟩

/-- C5 as amended: for every canonical product url already held by the
store (and dry-run off), `_extract_product_data` returns `None` — the
same outcome as a failed extraction, produced only after the detail
scraping work has run — and the record is therefore excluded from the
batch, so no image url reaches the embedder and the embedding stage is
not invoked for that url. -/
theorem duplicate_skip_no_embedding :
    ∀ (md5hex : String → String) (cfg : AF.BrandConfig) (emb : Bool)
      (dbHas : String → Bool) (pageOf : String → AF.ProductPage)
      (embedOf : String → Option (List ℚ)) (url : String),
      dbHas url = true → (pageOf url).navFails = false →
        (AF.extractProductData md5hex cfg false dbHas (pageOf url) url).result = none
      ∧ (AF.extractProductData md5hex cfg false dbHas (pageOf url) url).fieldsExtracted = true
      ∧ (AF.processBatch md5hex cfg false emb dbHas pageOf embedOf [url]).products_to_save = []
      ∧ (AF.processBatch md5hex cfg false emb dbHas pageOf embedOf [url]).image_urls = []
      ∧ (AF.processBatch md5hex cfg false emb dbHas pageOf embedOf [url]).embedInvoked = false := by
  intro md5hex cfg emb dbHas pageOf embedOf url hdb hnav
  have hext : AF.extractProductData md5hex cfg false dbHas (pageOf url) url
      = ⟨none, true, true⟩ := by
    unfold AF.extractProductData
    simp only [hnav]
    rw [if_neg (by simp)]
    rw [if_pos ⟨by simp, hdb⟩]
  have hbatch : AF.processBatch md5hex cfg false emb dbHas pageOf embedOf [url]
      = ⟨[], [], false, []⟩ := by
    unfold AF.processBatch
    simp [hext]
  exact ⟨by rw [hext], by rw [hext], by rw [hbatch], by rw [hbatch], by rw [hbatch]⟩

/-- Witness for C5's amended theorem at the sample url, page and
configuration. -/
theorem duplicate_skip_no_embedding_witness :
    (AF.processBatch (fun _ => "") AF.sampleConfig false true
        (fun u => u == AF.sampleUrl) (fun _ => AF.samplePage) (fun _ => none)
        [AF.sampleUrl]).embedInvoked = false :=
  (duplicate_skip_no_embedding (fun _ => "") AF.sampleConfig true
      (fun u => u == AF.sampleUrl) (fun _ => AF.samplePage) (fun _ => none)
      AF.sampleUrl (by decide) rfl).2.2.2.2

/-- Counterexample to C9: with the dry-run flag set, `_process_product_batch`
performs no database write — but it also skips embedding generation
(`if image_urls and not self.dry_run and self.embedder`), while the same
batch in a normal run does invoke the embedder; so dry-run does not
exercise the embedding stage "exactly as in a normal run". -/
theorem dry_run_skips_embedding_counterexample :
    (AF.processBatch (fun _ => "") AF.sampleConfig true true (fun _ => false)
        (fun _ => AF.samplePage) (fun _ => some [1]) [AF.sampleUrl]).embedInvoked = false
  ∧ (AF.processBatch (fun _ => "") AF.sampleConfig false true (fun _ => false)
        (fun _ => AF.samplePage) (fun _ => some [1]) [AF.sampleUrl]).embedInvoked = true
  ∧ (AF.processBatch (fun _ => "") AF.sampleConfig true true (fun _ => false)
        (fun _ => AF.samplePage) (fun _ => some [1]) [AF.sampleUrl]).dbWrites = []
  ∧ (AF.processBatch (fun _ => "") AF.sampleConfig false true (fun _ => false)
        (fun _ => AF.samplePage) (fun _ => some [1]) [AF.sampleUrl]).dbWrites.length = 1 :=
  ⟨by decide, by decide, by decide, by decide⟩

/-- C9 as amended: with the dry-run flag set, the batch stage performs no
persistence-stage writes whatsoever; discovery and detail extraction are
still exercised (extraction returns a record exactly when the page loads
— in dry-run it additionally skips the store existence check), but
embedding generation is skipped as well, unlike in a normal run. -/
theorem dry_run_no_db_writes :
    ∀ (md5hex : String → String) (cfg : AF.BrandConfig) (emb : Bool)
      (dbHas : String → Bool) (pageOf : String → AF.ProductPage)
      (embedOf : String → Option (List ℚ)) (urls : List String),
      (AF.processBatch md5hex cfg true emb dbHas pageOf embedOf urls).dbWrites = []
    ∧ (AF.processBatch md5hex cfg true emb dbHas pageOf embedOf urls).embedInvoked = false
    ∧ ∀ u, ((AF.extractProductData md5hex cfg true dbHas (pageOf u) u).result).isSome
            = !(pageOf u).navFails := by
  intro md5hex cfg emb dbHas pageOf embedOf urls
  refine ⟨?_, ?_, ?_⟩
  · unfold AF.processBatch
    simp
  · unfold AF.processBatch
    simp
  · intro u
    rcases h : (pageOf u).navFails with _ | _
    · simp [AF.extractProductData, h]
    · simp [AF.extractProductData, h]

/-- C10: the store existence check returns `False` whenever the
underlying datastore query raises, never propagating the exception — an
outage is indistinguishable from "product not seen before" (the same
`False` as an empty result set), so a previously stored product is
re-scraped (extraction proceeds and returns a record) rather than
skipped. -/
theorem product_exists_error_false :
    (∀ e : String, DatabasePy.product_exists (.error e) = false)
  ∧ (∀ e : String,
        DatabasePy.product_exists (.error e) = DatabasePy.product_exists (.ok []))
  ∧ (∀ (md5hex : String → String) (cfg : AF.BrandConfig) (pg : AF.ProductPage)
        (url e : String), pg.navFails = false →
        ((AF.extractProductData md5hex cfg false
            (fun _ => DatabasePy.product_exists (.error e)) pg url).result).isSome
          = true) := by
  refine ⟨fun e => rfl, fun e => rfl, ?_⟩
  intro md5hex cfg pg url e h
  simp [AF.extractProductData, h, DatabasePy.product_exists]

/-- Witness for C10: with every existence query failing, the sample
product is extracted (not skipped). -/
theorem product_exists_error_false_witness :
    ((AF.extractProductData (fun _ => "") AF.sampleConfig false
        (fun _ => DatabasePy.product_exists (.error "connection refused"))
        AF.samplePage AF.sampleUrl).result).isSome = true :=
  product_exists_error_false.2.2 (fun _ => "") AF.sampleConfig AF.samplePage
    AF.sampleUrl "connection refused" rfl

namespace SupabaseClient

theorem addBatchIds_enumFrom_eq (uuidA uuidB : Nat → String) :
    ∀ (rows : List DbRow) (n : Nat),
      (∀ r ∈ rows, r.id.isSome = true) →
      (List.enumFrom n rows).map (fun nr =>
        match nr.2.id with
        | some _ => nr.2
        | none => { nr.2 with id := some (uuidA nr.1) })
      = (List.enumFrom n rows).map (fun nr =>
        match nr.2.id with
        | some _ => nr.2
        | none => { nr.2 with id := some (uuidB nr.1) }) := by
  intro rows
  induction rows with
  | nil => intro n _; rfl
  | cons r rest ih =>
    intro n hids
    have hr := hids r (List.mem_cons_self r rest)
    rcases hid : r.id with _ | v
    · rw [hid] at hr
      cases hr
    · simp only [List.enumFrom, List.map_cons, hid]
      rw [ih (n + 1) (fun q hq => hids q (List.mem_cons_of_mem r hq))]

end SupabaseClient

/-- C2: the generated record id is a pure deterministic function of the
product url (via its site-native `/p/` product code, or the md5 content
hash): every record `_extract_product_data` emits carries
`generateProductId md5 source url` as its id, so the only random source
near id generation — the `uuid.uuid4()` fallback of
`insert_products_batch`, which fires only for rows missing an id — is
never consulted, and two runs over the same catalog state with different
uuid streams produce identical ids. -/
theorem product_id_independent_of_uuid_randomness :
    (∀ (uuidA uuidB : Nat → String) (rows : List SupabaseClient.DbRow),
        (∀ r ∈ rows, r.id.isSome = true) →
        SupabaseClient.addBatchIds uuidA rows = SupabaseClient.addBatchIds uuidB rows)
  ∧ (∀ (md5hex : String → String) (cfg : AF.BrandConfig) (dry : Bool)
        (dbHas : String → Bool) (pg : AF.ProductPage) (url : String)
        (d : AF.ProductData),
        (AF.extractProductData md5hex cfg dry dbHas pg url).result = some d →
        d.id = AF.generateProductId md5hex cfg.source url)
  ∧ (∀ (md5hex : String → String) (cfg : AF.BrandConfig) (dry : Bool)
        (dbHas : String → Bool) (pg : AF.ProductPage) (url : String)
        (uuidA uuidB : Nat → String),
        SupabaseClient.addBatchIds uuidA
            (((AF.extractProductData md5hex cfg dry dbHas pg url).result).map
              SupabaseClient.rowOfProduct).toList
          = SupabaseClient.addBatchIds uuidB
            (((AF.extractProductData md5hex cfg dry dbHas pg url).result).map
              SupabaseClient.rowOfProduct).toList) := by
  refine ⟨?_, ?_, ?_⟩
  · intro uuidA uuidB rows hids
    unfold SupabaseClient.addBatchIds
    exact SupabaseClient.addBatchIds_enumFrom_eq uuidA uuidB rows 0 hids
  · intro md5hex cfg dry dbHas pg url d h
    unfold AF.extractProductData at h
    dsimp only at h
    split at h
    · cases h
    · split at h
      · cases h
      · cases h
        rfl
  · intro md5hex cfg dry dbHas pg url uuidA uuidB
    rcases hres : (AF.extractProductData md5hex cfg dry dbHas pg url).result with _ | d
    · rfl
    · rfl

/-- Witness for C2: a batch whose single row carries an id produces the
same rows under two different uuid streams. -/
theorem product_id_independent_of_uuid_randomness_witness :
    SupabaseClient.addBatchIds (fun n => toString n)
        [⟨some "abercrombie_fitch_x1", "https://www.abercrombie.com/shop/eu/p/x1", "T"⟩]
      = SupabaseClient.addBatchIds (fun _ => "9f8e7d6c")
        [⟨some "abercrombie_fitch_x1", "https://www.abercrombie.com/shop/eu/p/x1", "T"⟩] :=
  product_id_independent_of_uuid_randomness.1 (fun n => toString n) (fun _ => "9f8e7d6c")
    [⟨some "abercrombie_fitch_x1", "https://www.abercrombie.com/shop/eu/p/x1", "T"⟩]
    (by decide)
